import Mathlib

/-!
Verification development for the plg_hsdt repository: a shallow embedding of
its DOCX placeholder-splice engine (`docx_processor.replace_placeholder_only`,
`processor_cac_buoc.CacBuocThucHienProcessor.replace_placeholder`), the
sub-step/table formatting logic of `processor_cac_buoc.py`, the step-count
classification of `step_detector.py` / `combined_processor.py`, and the
cross-run text replacement of `processor_can_cu.py` / `processor_muc_dich.py`,
together with theorems settling the behavioural claims about them.
-/

namespace PlgHsdt

/-! ### String helpers mirroring the Python primitives used by the code -/

/-- Python `pat in s` on character lists: does `pat` occur as a contiguous
segment of `s`?  (`charsContain pat []` is true exactly for the empty
pattern, as in Python where `"" in ""` holds.) -/
def charsContain (pat : List Char) : List Char → Bool
  | [] => pat.isEmpty
  | c :: tl => pat.isPrefixOf (c :: tl) || charsContain pat tl

/-- Python `pat in s` for strings. -/
def strContains (s pat : String) : Bool :=
  charsContain pat.data s.data

/-- Python `str.strip()`: drop leading and trailing whitespace. -/
def pyStrip (s : String) : String :=
  ⟨((s.data.dropWhile Char.isWhitespace).reverse.dropWhile Char.isWhitespace).reverse⟩

/-- Python `str.isdigit()` (restricted to ASCII digits, the only digits the
step labels of this repository use): nonempty and all digits. -/
def pyIsDigit (s : String) : Bool :=
  !s.data.isEmpty && s.data.all Char.isDigit

/-- Python `s.split(pat, 1)` on character lists, for `pat` occurring in `s`:
the segment before the first occurrence and the remainder after it. -/
def splitChars (pat : List Char) : List Char → List Char × List Char
  | [] => ([], [])
  | c :: tl =>
    if pat.isPrefixOf (c :: tl) then ([], (c :: tl).drop pat.length)
    else
      let ba := splitChars pat tl
      (c :: ba.1, ba.2)

/-- Python `s.split(pat, 1)` for strings (used only when `pat` occurs). -/
def splitOnce (s pat : String) : String × String :=
  let ba := splitChars pat.data s.data
  (⟨ba.1⟩, ⟨ba.2⟩)

/-! ### Document model

A body is an ordered list of blocks (paragraphs and tables), mirroring the
XML body that `replace_placeholder_only` mutates through lxml.  A paragraph
carries its run texts (its visible text is their concatenation) and the list
of `w:spacing` children of its `pPr`; a table row carries its cell texts and
the list of `w:trHeight` children of its `trPr`.  Valid OOXML has at most
one `w:spacing` per `pPr` and one `w:trHeight` per `trPr`; the lists keep
the embedding honest about the remove-then-append mechanics of the code. -/

structure Spacing where
  before : Nat
  after : Nat
  line : Nat
  lineRule : String
  deriving DecidableEq

structure Paragraph where
  spacings : List Spacing
  runs : List String
  deriving DecidableEq

structure TrHeight where
  val : Nat
  hRule : String
  deriving DecidableEq

structure Row where
  heights : List TrHeight
  cells : List String
  deriving DecidableEq

structure Table where
  rows : List Row
  deriving DecidableEq

inductive Block where
  | para (p : Paragraph)
  | table (t : Table)
  deriving DecidableEq

/-- `paragraph.text` in python-docx: concatenation of the run texts. -/
def paraText (p : Paragraph) : String :=
  String.join p.runs

/-! ### Content normalization (docx_processor.replace_placeholder_only, lines 78-121)

Inserted paragraphs get the fixed `w:spacing` (before=120, after=120,
line=360, lineRule="auto"); every row of an inserted table gets the fixed
`w:trHeight` (val=600, hRule="atLeast").  The code removes the first
pre-existing property found and appends the fixed one. -/

def fixedSpacing : Spacing := ⟨120, 120, 360, "auto"⟩

def fixedHeight : TrHeight := ⟨600, "atLeast"⟩

/-- `pPr.remove(existing)` after `find`: the first element, if any, is removed. -/
def dropFirst {α : Type} : List α → List α
  | [] => []
  | _ :: tl => tl

/-- Remove the first existing `w:spacing` (if any) and append the fixed one. -/
def setSpacing (p : Paragraph) : Paragraph :=
  { p with spacings := dropFirst p.spacings ++ [fixedSpacing] }

/-- Remove the first existing `w:trHeight` (if any) and append the fixed one. -/
def setRowHeight (r : Row) : Row :=
  { r with heights := dropFirst r.heights ++ [fixedHeight] }

/-- The spacing/row-height override applied to each block as it is inserted. -/
def normalizeBlock : Block → Block
  | Block.para p => Block.para (setSpacing p)
  | Block.table t => Block.table ⟨t.rows.map setRowHeight⟩

/-- Well-formed block: at most one `w:spacing` per paragraph and one
`w:trHeight` per row, as any valid OOXML document has. -/
def blockWF : Block → Bool
  | Block.para p => p.spacings.length ≤ 1
  | Block.table t => t.rows.all fun r => r.heights.length ≤ 1

/-- A fully overridden block: the spacing (resp. every row height) is
exactly the single fixed property. -/
def blockNormed : Block → Bool
  | Block.para p => p.spacings = [fixedSpacing]
  | Block.table t => t.rows.all fun r => r.heights = [fixedHeight]

/-! ### Source element collection (docx_processor.replace_placeholder_only, lines 43-52)

The code walks `source_doc.paragraphs` (body paragraphs, in order), keeping
those with non-blank text, and then appends `source_doc.tables` (body
tables, in order): paragraphs first, then tables. -/

/-- The source body paragraphs whose stripped text is nonempty, in order. -/
def sourceParagraphBlocks (src : List Block) : List Block :=
  src.filterMap fun b =>
    match b with
    | Block.para p => if pyStrip (paraText p) = "" then none else some (Block.para p)
    | Block.table _ => none

/-- The source body tables, in order. -/
def sourceTableBlocks (src : List Block) : List Block :=
  src.filterMap fun b =>
    match b with
    | Block.para _ => none
    | Block.table t => some (Block.table t)

/-- `all_elements` as the code builds it: non-blank paragraphs first, then
all tables. -/
def sourceElements (src : List Block) : List Block :=
  sourceParagraphBlocks src ++ sourceTableBlocks src

/-- The elements actually inserted: `all_elements`, each enhanced by the
spacing/height override at insertion time. -/
def normalizedElements (src : List Block) : List Block :=
  (sourceElements src).map normalizeBlock

/-- Modelled from the spec: the order the spec asserts for the
inserted blocks — "content must appear in the same relative order it had in
its source", i.e. non-blank paragraphs and tables interleaved exactly as in
the source body.  Stated for comparison with `sourceElements`, which is what
the code computes. -/
def sourceBodyOrderBlocks (src : List Block) : List Block :=
  src.filterMap fun b =>
    match b with
    | Block.para p => if pyStrip (paraText p) = "" then none else some (Block.para p)
    | Block.table t => some (Block.table t)

/-! ### The splice (docx_processor.replace_placeholder_only, lines 56-130)

The loop scans `doc.paragraphs` (body paragraphs only, in order, never table
cells) for the first whose text contains the placeholder, removes that
paragraph's element from the body, and inserts the prepared elements at its
index (in reverse, so they end in original relative order), then breaks. -/

/-- Marker test used by the scan: a paragraph whose text contains the
placeholder.  Tables are never scanned (`doc.paragraphs` excludes them). -/
def blockMatches (ph : String) : Block → Bool
  | Block.para p => strContains (paraText p) ph
  | Block.table _ => false

/-- The body after the splice: the first matching paragraph is replaced by
`nb`; `none` when no body paragraph contains the placeholder. -/
def spliceBody (ph : String) (nb : List Block) : List Block → Option (List Block)
  | [] => none
  | b :: rest =>
    if blockMatches ph b then some (nb ++ rest)
    else Option.map (fun l => b :: l) (spliceBody ph nb rest)

/-- The whole in-memory operation as seen by the caller: the returned flag
(`placeholder_found`) and the resulting body (unchanged when not found,
since the function returns `False` without inserting anything). -/
def spliceResult (ph : String) (nb : List Block) (tgt : List Block) :
    Bool × List Block :=
  match spliceBody ph nb tgt with
  | none => (false, tgt)
  | some out => (true, out)

/-- `replace_placeholder_only` on bodies: collect and normalize the source
elements, then splice them over the marker paragraph of the target. -/
def spliceOp (ph : String) (src tgt : List Block) : Option (List Block) :=
  spliceBody ph (normalizedElements src) tgt

/-! ### File-level behaviour of `replace_placeholder_only`

The function first copies the template to the output path (`shutil.copy2`),
then loads both documents, splices in memory, and saves back to the output
path only on success; on any failure after the copy it returns `False`,
leaving the copied template at the output path.  The file store is a path to
body map, newest write first. -/

def FS : Type := List (String × List Block)

/-- The body stored at a path, if any (latest write wins). -/
def fsGet (fs : FS) (path : String) : Option (List Block) :=
  match fs with
  | [] => none
  | e :: tl => if e.1 = path then some e.2 else fsGet tl path

/-- Write a body at a path. -/
def fsSet (fs : FS) (path : String) (body : List Block) : FS :=
  (path, body) :: fs

/-- `replace_placeholder_only(template_path, content_path, output_path)` as a
file-store transformer returning the function's boolean result.  A missing
file raises inside the `try` block and is reported as `False`; the copy of
the template to `outPath` happens before the content document is opened. -/
def replace_placeholder_only (ph tmplPath contentPath outPath : String)
    (fs : FS) : Bool × FS :=
  match fsGet fs tmplPath with
  | none => (false, fs)
  | some tmpl =>
    let fs1 := fsSet fs outPath tmpl
    match fsGet fs1 contentPath with
    | none => (false, fs1)
    | some content =>
      match spliceBody ph (normalizedElements content) tmpl with
      | none => (false, fs1)
      | some out => (true, fsSet fs1 outPath out)

/-! ### Sub-step predicate (processor_cac_buoc.CacBuocThucHienProcessor.is_sub_step) -/

/-- Regex `^[a-z]\)$`. -/
def patSingleLowerParen (s : String) : Bool :=
  match s.data with
  | [c, k] => ('a' ≤ c && c ≤ 'z') && k = ')'
  | _ => false

/-- Regex `^[a-z]$`. -/
def patSingleLower (s : String) : Bool :=
  match s.data with
  | [c] => 'a' ≤ c && c ≤ 'z'
  | _ => false

/-- Regex `^[a-z]{2,}\)$`: two or more lowercase letters then `)`. -/
def patMultiLowerParen (s : String) : Bool :=
  match s.data.reverse with
  | k :: c1 :: c2 :: tl =>
    k = ')' && ('a' ≤ c1 && c1 ≤ 'z') && ('a' ≤ c2 && c2 ≤ 'z')
      && tl.all fun c => 'a' ≤ c && c ≤ 'z'
  | _ => false

/-- `is_sub_step`: empty labels return `False` immediately; otherwise the
stripped label is a main step when it is purely digits, and everything else
falls through the sub-step patterns to the final `return True`. -/
def is_sub_step (s : String) : Bool :=
  if s = "" then false
  else
    let c := pyStrip s
    if pyIsDigit c then false
    else if patSingleLowerParen c || patSingleLower c || patMultiLowerParen c then true
    else true

/-- Modelled from the spec: "a cell value consisting purely of digits",
the spec's wording of the main-step condition, for comparison with
`is_sub_step`. -/
def consistsPurelyOfDigits (s : String) : Bool :=
  s.data.all Char.isDigit

/-! ### Step-table cell formatting (processor_cac_buoc.create_formatted_docx, lines 270-313)

Each parsed CSV row becomes a two-cell table row; each cell holds one run.
A sub-step label italicises both runs; row 0 is then forced bold and
non-italic in both cells, overriding the predicate. -/

structure FmtRun where
  text : String
  bold : Option Bool
  italic : Option Bool
  deriving DecidableEq

/-- `str(row_data[0]).strip() if len(row_data) > 0 else ""`: the stripped
step label of a row. -/
def rowLabel (row_data : List String) : String :=
  pyStrip (row_data.getD 0 "")

/-- The two runs produced for row `i` with data `row_data`. -/
def formatRowCells (i : Nat) (row_data : List String) : FmtRun × FmtRun :=
  let step_number := rowLabel row_data
  let content_text := row_data.getD 1 ""
  let ital : Option Bool := if is_sub_step step_number then some true else none
  let r1 : FmtRun := ⟨step_number, none, ital⟩
  let r2 : FmtRun := ⟨content_text, none, ital⟩
  if i = 0 then
    ({ r1 with bold := some true, italic := some false },
     { r2 with bold := some true, italic := some false })
  else (r1, r2)

/-- The full table: one `(run1, run2)` pair per parsed row, in order. -/
def buildTableRows (parsed_rows : List (List String)) : List (FmtRun × FmtRun) :=
  parsed_rows.enum.map fun ir => formatRowCells ir.1 ir.2

/-! ### Step-count classification (step_detector.detect_steps_with_openai,
combined_processor.detect_steps_with_openai / process_complete_workflow) -/

/-- The validation of the model's response: strip it; `"21"` and `"23"` map
to the integers 21 and 23; the explicit `"UNKNOWN"` branch and the
unexpected-response branch both return `None`. -/
def classifyStepCount (resp : String) : Option Nat :=
  let c := pyStrip resp
  if c = "21" then some 21
  else if c = "23" then some 23
  else none

/-- The orchestrator step that names the content file: on `None` (or the
falsy 0, per `if not step_count`) the workflow returns `False` before any
content file is selected; otherwise it selects `f"{step_count}_BUOC.docx"`. -/
def selectContentFile (resp : String) : Option String :=
  match classifyStepCount resp with
  | none => none
  | some n => if n = 0 then none else some (Nat.repr n ++ "_BUOC.docx")

/-! ### Cross-run text replacement
(processor_can_cu / processor_muc_dich, replace_text_variables_preserve_runs)

The paragraph is a list of run texts.  The outer loop walks an index `i`;
the inner loop accumulates `run_text` over runs `i, i+1, ...` (stopping at
the end or at 100 accumulated characters) and after each extension tries
every `(key, val)` pair in order.  On a match at final inner index `j` it
clears runs `i..j-1`, writes `before` to run `i` (when nonempty), writes
`val` to run `i+1` unconditionally, writes `after` to run `i+2` (when
nonempty), and resumes at `j+1`.  An out-of-range write is Python's
`IndexError`, modelled as `none`. -/

/-- First matching dictionary entry against the accumulated text: returns
`(before, after, val)` from `run_text.split(placeholder, 1)`. -/
def findVar (vars : List (String × String)) (acc : String) :
    Option (String × String × String) :=
  match vars with
  | [] => none
  | (k, v) :: tl =>
    let ph := "\x7b\x7b" ++ k ++ "\x7d\x7d"
    if strContains acc ph then
      let ba := splitOnce acc ph
      some (ba.1, ba.2, v)
    else findVar tl acc

/-- The inner accumulation loop over the run suffix starting at `i`:
`some (n, before, after, val)` means the match fired after consuming
`n + 1` runs (Python's final `j` is `i + n + 1`). -/
def scanSuffix (vars : List (String × String)) (acc : String) :
    List String → Option (Nat × String × String × String)
  | [] => none
  | r :: rest =>
    if acc.length < 100 then
      let acc2 := acc ++ r
      match findVar vars acc2 with
      | some (b, a, v) => some (0, b, a, v)
      | none =>
        match scanSuffix vars acc2 rest with
        | some (n, b, a, v) => some (n + 1, b, a, v)
        | none => none
    else none

/-- `for k in range(i, i+n): runs[k].text = ""` (indices in range by the
loop invariant; `List.set` is the Python element assignment). -/
def clearFrom (l : List String) (i : Nat) : Nat → List String
  | 0 => l
  | n + 1 => clearFrom (l.set i "") (i + 1) n

/-- Python `runs[k].text = s` with its bounds check: `none` is `IndexError`. -/
def setIdx (l : List String) (k : Nat) (s : String) : Option (List String) :=
  if k < l.length then some (l.set k s) else none

/-- The write-back after a match at `i..j-1`: clear, then the three guarded
writes.  The unconditional write to index `i + 1` is the one the code
performs with no bounds check. -/
def writeBack (runs : List String) (i j : Nat) (b a v : String) :
    Option (List String) :=
  let cleared := clearFrom runs i (j - i)
  let step1 := if b = "" then some cleared else setIdx cleared i b
  match step1 with
  | none => none
  | some l1 =>
    match setIdx l1 (i + 1) v with
    | none => none
    | some l2 => if a = "" then some l2 else setIdx l2 (i + 2) a

/-- The outer `while i < len(runs)` loop.  `fuel` bounds the number of
iterations; each iteration advances `i` by at least one and the run count
never changes, so `fuel = runs.length` makes the fuel-exhausted branch
coincide with the loop's normal `i >= len(runs)` exit. -/
def replaceLoop (vars : List (String × String)) :
    Nat → List String → Nat → Option (List String)
  | 0, runs, _ => some runs
  | fuel + 1, runs, i =>
    if i < runs.length then
      match scanSuffix vars "" (runs.drop i) with
      | some (n, b, a, v) =>
        match writeBack runs i (i + n + 1) b a v with
        | none => none
        | some runs2 => replaceLoop vars fuel runs2 (i + n + 2)
      | none => replaceLoop vars fuel runs (i + 1)
    else some runs

/-- `replace_text_variables_preserve_runs` on one paragraph's run texts:
`none` models an uncaught `IndexError`. -/
def replace_text_variables_preserve_runs (vars : List (String × String))
    (runs : List String) : Option (List String) :=
  replaceLoop vars runs.length runs 0

/-! ### Concrete documents used by witnesses and counterexamples -/

/-- A source body whose table precedes its paragraph. -/
def c1Src : List Block := [Block.table ⟨[⟨[], ["cell"]⟩]⟩, Block.para ⟨[], ["X"]⟩]

/-- A target body that is exactly the marker paragraph. -/
def c1Tgt : List Block := [Block.para ⟨[], ["{{x}}"]⟩]

/-- Source for the C1 witness: paragraph, table, paragraph. -/
def c1wSrc : List Block :=
  [Block.para ⟨[], ["A"]⟩, Block.table ⟨[]⟩, Block.para ⟨[], ["B"]⟩]

/-- Target for the C1 witness: marker in the middle. -/
def c1wTgt : List Block :=
  [Block.para ⟨[], ["intro"]⟩, Block.para ⟨[], ["has {{y}} here"]⟩,
   Block.para ⟨[], ["outro"]⟩]

/-- The spliced body the C1 witness expects: both source paragraphs
(normalized) first, then the table, between the untouched neighbours. -/
def c1wOut : List Block :=
  [Block.para ⟨[], ["intro"]⟩,
   Block.para ⟨[fixedSpacing], ["A"]⟩, Block.para ⟨[fixedSpacing], ["B"]⟩,
   Block.table ⟨[]⟩,
   Block.para ⟨[], ["outro"]⟩]

/-- Step-table rows of Scenario C: a header, a main step, a sub-step. -/
def c7Rows : List (List String) :=
  [["STT", "Content"], ["1", "Step one"], ["a)", "Sub one"]]

/-- A file store holding a template without the placeholder and a content
document, for the provisional-path claim. -/
def c9Fs : FS :=
  [("02_MUC_DO_HIEU_BIET_template.docx", [Block.para ⟨[], ["no marker here"]⟩]),
   ("21_BUOC.docx", [Block.para ⟨[], ["content"]⟩])]

/-! ### Splice characterization lemmas -/

/-- The splice reports not-found exactly when no body block matches; only
paragraphs can match, so tables are never the marker. -/
theorem spliceBody_none_iff (ph : String) (nb : List Block) (tgt : List Block) :
    spliceBody ph nb tgt = none ↔ ∀ b ∈ tgt, blockMatches ph b = false := by
  induction tgt with
  | nil => simp [spliceBody]
  | cons hd tl ih =>
    by_cases hm : blockMatches ph hd
    · simp [spliceBody, hm]
    · simp [spliceBody, hm, Option.map_eq_none', ih]

/-- A successful splice splits the target at the first matching block; the
prefix and suffix survive unchanged with `nb` in the marker's place. -/
theorem spliceBody_some_split (ph : String) (nb : List Block) :
    ∀ tgt out, spliceBody ph nb tgt = some out →
      ∃ pre b post, tgt = pre ++ b :: post ∧ blockMatches ph b = true ∧
        (∀ b2 ∈ pre, blockMatches ph b2 = false) ∧ out = pre ++ (nb ++ post) := by
  intro tgt
  induction tgt with
  | nil => intro out h; simp [spliceBody] at h
  | cons hd tl ih =>
    intro out h
    by_cases hm : blockMatches ph hd
    · rw [spliceBody, if_pos hm] at h
      refine ⟨[], hd, tl, rfl, hm, by simp, ?_⟩
      simpa using h.symm
    · rw [spliceBody, if_neg hm] at h
      rcases ho : spliceBody ph nb tl with _ | out2
      · rw [ho] at h; simp at h
      · rw [ho] at h
        simp only [Option.map_some'] at h
        obtain ⟨pre, b, post, ht, hbm, hpre, hout⟩ := ih out2 ho
        refine ⟨hd :: pre, b, post, by rw [ht]; rfl, hbm, ?_, ?_⟩
        · intro b2 hb2
          rcases List.mem_cons.mp hb2 with h2 | h2
          · subst h2; simpa using hm
          · exact hpre b2 h2
        · rw [← Option.some.injEq] at h
          simp only [Option.some.injEq] at h
          rw [← h, hout]
          simp

/-! ### Claim theorems -/

/-- C1 counterexample: splicing a source whose body is a table followed by a
paragraph does NOT reproduce the source's interleaved order — the splice is
found, yet the inserted sequence differs from the normalized blocks in
source body order (the code emits all paragraphs first, then all tables). -/
theorem c1_source_order_cex :
    (spliceOp "{{x}}" c1Src c1Tgt).isSome = true ∧
    spliceOp "{{x}}" c1Src c1Tgt = some ((sourceElements c1Src).map normalizeBlock) ∧
    spliceOp "{{x}}" c1Src c1Tgt ≠ some ((sourceBodyOrderBlocks c1Src).map normalizeBlock) := by
  decide

/-- C1 (amended): for every source document and every target in which the
placeholder is found, the splice replaces the first marker paragraph with
the normalized non-blank source paragraphs in their source relative order
followed by the normalized source tables in their source relative order
(paragraphs precede tables rather than interleaving with them), and leaves
every other target block unchanged and in its original order. -/
theorem c1_splice_order (ph : String) (src tgt out : List Block)
    (h : spliceOp ph src tgt = some out) :
    ∃ pre p post,
      tgt = pre ++ Block.para p :: post ∧
      strContains (paraText p) ph = true ∧
      out = pre ++ ((sourceParagraphBlocks src).map normalizeBlock ++
        ((sourceTableBlocks src).map normalizeBlock ++ post)) := by
  obtain ⟨pre, b, post, ht, hbm, hpre, hout⟩ :=
    spliceBody_some_split ph (normalizedElements src) tgt out h
  cases b with
  | table t => simp [blockMatches] at hbm
  | para p =>
    refine ⟨pre, p, post, ht, by simpa [blockMatches] using hbm, ?_⟩
    rw [hout]
    simp [normalizedElements, sourceElements]

/-- C1 witness: splicing a paragraph-table-paragraph source at a marker
between two other paragraphs. -/
theorem c1_splice_order_witness :
    spliceOp "{{y}}" c1wSrc c1wTgt = some c1wOut ∧
    (∃ pre p post,
      c1wTgt = pre ++ Block.para p :: post ∧
      strContains (paraText p) "{{y}}" = true ∧
      c1wOut = pre ++ ((sourceParagraphBlocks c1wSrc).map normalizeBlock ++
        ((sourceTableBlocks c1wSrc).map normalizeBlock ++ post))) :=
  ⟨by decide, c1_splice_order "{{y}}" c1wSrc c1wTgt c1wOut (by decide)⟩

/-- C2: when the placeholder is found, the spliced body has exactly
`(blocks before) - 1 + (normalized blocks)` blocks: one marker paragraph
removed, every normalized block inserted exactly once. -/
theorem c2_count_invariant (ph : String) (src tgt out : List Block)
    (h : spliceOp ph src tgt = some out) :
    out.length = tgt.length - 1 + (normalizedElements src).length := by
  obtain ⟨pre, b, post, ht, _, _, hout⟩ :=
    spliceBody_some_split ph (normalizedElements src) tgt out h
  subst hout
  subst ht
  simp [List.length_append]
  omega

/-- C2 witness: a 3-block target and a 2-element source give a 4-block
result. -/
theorem c2_count_invariant_witness :
    spliceOp "{{y}}" c1wSrc c1wTgt = some c1wOut ∧
    c1wOut.length = c1wTgt.length - 1 + (normalizedElements c1wSrc).length :=
  ⟨by decide, c2_count_invariant "{{y}}" c1wSrc c1wTgt c1wOut (by decide)⟩

/-- C3: first-match policy.  A successful splice replaces the first
paragraph (in document order) containing the placeholder — every block
before it is a non-matching block and survives, and every block after it,
including later paragraphs that also contain the placeholder, is left
untouched; and when no body paragraph contains the placeholder the splice
finds nothing, no matter what text the table cells hold (table cells are
never scanned). -/
theorem c3_first_match_policy (ph : String) (nb tgt : List Block) :
    (∀ out, spliceBody ph nb tgt = some out →
      ∃ pre p post, tgt = pre ++ Block.para p :: post ∧
        strContains (paraText p) ph = true ∧
        (∀ q, Block.para q ∈ pre → strContains (paraText q) ph = false) ∧
        out = pre ++ (nb ++ post)) ∧
    ((∀ q, Block.para q ∈ tgt → strContains (paraText q) ph = false) →
      spliceBody ph nb tgt = none) := by
  constructor
  · intro out h
    obtain ⟨pre, b, post, ht, hbm, hpre, hout⟩ := spliceBody_some_split ph nb tgt out h
    cases b with
    | table t => simp [blockMatches] at hbm
    | para p =>
      refine ⟨pre, p, post, ht, by simpa [blockMatches] using hbm, ?_, hout⟩
      intro q hq
      simpa [blockMatches] using hpre (Block.para q) hq
  · intro h
    refine (spliceBody_none_iff ph nb tgt).2 ?_
    intro b hb
    cases b with
    | para p => simpa [blockMatches] using h p hb
    | table t => simp [blockMatches]

/-- C3 witness: a target whose body is a table with `{{z}}` in a cell, then
two paragraphs both containing `{{z}}`; only the first paragraph is
replaced, the table and the second occurrence survive verbatim. -/
theorem c3_first_match_policy_witness :
    spliceBody "{{z}}" [Block.para ⟨[], ["N"]⟩]
      [Block.table ⟨[⟨[], ["cell {{z}}"]⟩]⟩, Block.para ⟨[], ["first {{z}}"]⟩,
       Block.para ⟨[], ["second {{z}}"]⟩] =
      some [Block.table ⟨[⟨[], ["cell {{z}}"]⟩]⟩, Block.para ⟨[], ["N"]⟩,
       Block.para ⟨[], ["second {{z}}"]⟩] ∧
    (∃ pre p post,
      [Block.table ⟨[⟨[], ["cell {{z}}"]⟩]⟩, Block.para ⟨[], ["first {{z}}"]⟩,
       Block.para ⟨[], ["second {{z}}"]⟩] = pre ++ Block.para p :: post ∧
      strContains (paraText p) "{{z}}" = true ∧
      (∀ q, Block.para q ∈ pre → strContains (paraText q) "{{z}}" = false) ∧
      [Block.table ⟨[⟨[], ["cell {{z}}"]⟩]⟩, Block.para ⟨[], ["N"]⟩,
       Block.para ⟨[], ["second {{z}}"]⟩] = pre ++ ([Block.para ⟨[], ["N"]⟩] ++ post)) :=
  ⟨by decide,
   (c3_first_match_policy "{{z}}" [Block.para ⟨[], ["N"]⟩] _).1 _ (by decide)⟩

/-- C4: when no body paragraph contains the placeholder the operation
reports not-found (`False`) and the body is returned unchanged — even if a
table cell's text contains the placeholder, since table cells are not
scanned. -/
theorem c4_not_found_unchanged (ph : String) (nb tgt : List Block)
    (h : ∀ p, Block.para p ∈ tgt → strContains (paraText p) ph = false) :
    spliceResult ph nb tgt = (false, tgt) := by
  have hn : spliceBody ph nb tgt = none := by
    refine (spliceBody_none_iff ph nb tgt).2 ?_
    intro b hb
    cases b with
    | para p => simpa [blockMatches] using h p hb
    | table t => simp [blockMatches]
  simp [spliceResult, hn]

/-- C4 witness: a body with an ordinary paragraph and a table whose cell
mentions `{{w}}` is returned unchanged with `found = false`. -/
theorem c4_not_found_unchanged_witness :
    spliceResult "{{w}}" [Block.para ⟨[], ["N"]⟩]
      [Block.para ⟨[], ["plain"]⟩, Block.table ⟨[⟨[], ["cell {{w}}"]⟩]⟩] =
      (false, [Block.para ⟨[], ["plain"]⟩, Block.table ⟨[⟨[], ["cell {{w}}"]⟩]⟩]) :=
  c4_not_found_unchanged "{{w}}" [Block.para ⟨[], ["N"]⟩]
    [Block.para ⟨[], ["plain"]⟩, Block.table ⟨[⟨[], ["cell {{w}}"]⟩]⟩]
    (by
      intro p hp
      simp only [List.mem_cons, List.not_mem_nil, or_false] at hp
      rcases hp with h1 | h1
      · injection h1 with h1
        subst h1
        decide
      · exact absurd h1 (by simp))

/-- Applying the row-height override twice is the same as applying it once,
for a row with at most one pre-existing height property, and the result
carries exactly the fixed height. -/
theorem setRowHeight_idem (r : Row) (h : r.heights.length ≤ 1) :
    setRowHeight (setRowHeight r) = setRowHeight r ∧
    (setRowHeight r).heights = [fixedHeight] := by
  rcases r with ⟨hs, cs⟩
  match hs with
  | [] => simp [setRowHeight, dropFirst]
  | [s] => simp [setRowHeight, dropFirst]
  | s1 :: s2 :: tl => simp [List.length_cons] at h

/-- C5: the normalizer's spacing/height override is idempotent on any
well-formed block (at most one pre-existing `w:spacing` per paragraph and
`w:trHeight` per row): applying it twice equals applying it once, and the
pre-existing property is removed and replaced by exactly one fixed
property, never duplicated. -/
theorem c5_normalize_idempotent (b : Block) (h : blockWF b = true) :
    normalizeBlock (normalizeBlock b) = normalizeBlock b ∧
    blockNormed (normalizeBlock b) = true := by
  cases b with
  | para p =>
    rcases p with ⟨sp, runs⟩
    match sp with
    | [] => simp [normalizeBlock, setSpacing, dropFirst, blockNormed]
    | [s] => simp [normalizeBlock, setSpacing, dropFirst, blockNormed]
    | s1 :: s2 :: tl => simp [blockWF, List.length_cons] at h
  | table t =>
    rcases t with ⟨rows⟩
    have hw : ∀ r ∈ rows, r.heights.length ≤ 1 := by
      simpa [blockWF, List.all_eq_true] using h
    constructor
    · simp only [normalizeBlock, List.map_map, Block.table.injEq, Table.mk.injEq]
      apply List.map_congr_left
      intro r hr
      simpa [Function.comp] using (setRowHeight_idem r (hw r hr)).1
    · simp only [normalizeBlock, blockNormed, List.all_eq_true, List.mem_map]
      rintro x ⟨r, hr, rfl⟩
      simpa using (setRowHeight_idem r (hw r hr)).2

/-- C5 witness: a paragraph with one pre-existing spacing and a one-row
table with one pre-existing height. -/
theorem c5_normalize_idempotent_witness :
    (blockWF (Block.para ⟨[⟨7, 8, 9, "exact"⟩], ["t"]⟩) = true ∧
      normalizeBlock (normalizeBlock (Block.para ⟨[⟨7, 8, 9, "exact"⟩], ["t"]⟩)) =
        normalizeBlock (Block.para ⟨[⟨7, 8, 9, "exact"⟩], ["t"]⟩) ∧
      blockNormed (normalizeBlock (Block.para ⟨[⟨7, 8, 9, "exact"⟩], ["t"]⟩)) = true) ∧
    (blockWF (Block.table ⟨[⟨[⟨33, "exact"⟩], ["c"]⟩]⟩) = true ∧
      normalizeBlock (normalizeBlock (Block.table ⟨[⟨[⟨33, "exact"⟩], ["c"]⟩]⟩)) =
        normalizeBlock (Block.table ⟨[⟨[⟨33, "exact"⟩], ["c"]⟩]⟩) ∧
      blockNormed (normalizeBlock (Block.table ⟨[⟨[⟨33, "exact"⟩], ["c"]⟩]⟩)) = true) :=
  ⟨⟨by decide,
    (c5_normalize_idempotent (Block.para ⟨[⟨7, 8, 9, "exact"⟩], ["t"]⟩) (by decide)).1,
    (c5_normalize_idempotent (Block.para ⟨[⟨7, 8, 9, "exact"⟩], ["t"]⟩) (by decide)).2⟩,
   ⟨by decide,
    (c5_normalize_idempotent (Block.table ⟨[⟨[⟨33, "exact"⟩], ["c"]⟩]⟩) (by decide)).1,
    (c5_normalize_idempotent (Block.table ⟨[⟨[⟨33, "exact"⟩], ["c"]⟩]⟩) (by decide)).2⟩⟩

/-- C6 counterexample: the label `"1 "` (a digit with a trailing blank) is
classified as a main step by `is_sub_step`, yet it does not consist purely
of digits — the predicate strips the label first, so "main step iff the
label consists purely of digits" fails as a statement over all labels. -/
theorem c6_predicate_cex :
    is_sub_step "1 " = false ∧ consistsPurelyOfDigits "1 " = false := by
  decide

/-- C6 (amended): `is_sub_step` classifies a label as a main step (not
italicized) exactly when the label is the empty string or its
whitespace-stripped form is a nonempty string of digits; every other label
is a sub-step.  The labels "1", "2", "3" are main steps and "a)", "aa)",
"b" are sub-steps. -/
theorem c6_predicate_amended (s : String) :
    (is_sub_step s = false ↔ s = "" ∨ pyIsDigit (pyStrip s) = true) ∧
    is_sub_step "1" = false ∧ is_sub_step "2" = false ∧ is_sub_step "3" = false ∧
    is_sub_step "a)" = true ∧ is_sub_step "aa)" = true ∧ is_sub_step "b" = true := by
  refine ⟨?_, by decide, by decide, by decide, by decide, by decide, by decide⟩
  unfold is_sub_step
  by_cases h0 : s = ""
  · simp [h0]
  · by_cases hd : pyIsDigit (pyStrip s) = true
    · simp [h0, hd]
    · simp [h0, hd]

/-- C6 witness: the empty label and a padded digit label are main steps per
the amended rule. -/
theorem c6_predicate_amended_witness :
    is_sub_step "" = false ∧ is_sub_step " 7 " = false :=
  ⟨((c6_predicate_amended "").1).mpr (Or.inl rfl),
   ((c6_predicate_amended " 7 ").1).mpr (Or.inr (by decide))⟩

/-- C7: in the table built by `create_formatted_docx`, row 0 is always
forced to bold, non-italic runs in both cells regardless of its label, and
every later row whose (stripped) label satisfies the sub-step predicate has
both its cells' runs marked italic. -/
theorem c7_header_and_italic (parsed_rows : List (List String)) (i : Nat)
    (row_data : List String) (hrow : parsed_rows[i]? = some row_data) :
    ∃ c1 c2, (buildTableRows parsed_rows)[i]? = some (c1, c2) ∧
      (i = 0 → c1.bold = some true ∧ c1.italic = some false ∧
        c2.bold = some true ∧ c2.italic = some false) ∧
      (0 < i → is_sub_step (rowLabel row_data) = true →
        c1.italic = some true ∧ c2.italic = some true) := by
  have hb : (buildTableRows parsed_rows)[i]? = some (formatRowCells i row_data) := by
    simp [buildTableRows, List.getElem?_map, List.getElem?_enum, hrow]
  refine ⟨(formatRowCells i row_data).1, (formatRowCells i row_data).2,
    by simp [hb], ?_, ?_⟩
  · rintro rfl
    simp [formatRowCells]
  · intro hi hsub
    have hne : i ≠ 0 := Nat.pos_iff_ne_zero.mp hi
    simp [formatRowCells, hne, hsub]

/-- C7 witness: on the header/main-step/sub-step table of Scenario C, row 0
comes out bold and non-italic and row 2 comes out italic in both cells. -/
theorem c7_header_and_italic_witness :
    (∃ c1 c2, (buildTableRows c7Rows)[0]? = some (c1, c2) ∧
      (0 = 0 → c1.bold = some true ∧ c1.italic = some false ∧
        c2.bold = some true ∧ c2.italic = some false) ∧
      (0 < 0 → is_sub_step (rowLabel ["STT", "Content"]) = true →
        c1.italic = some true ∧ c2.italic = some true)) ∧
    (∃ c1 c2, (buildTableRows c7Rows)[2]? = some (c1, c2) ∧
      (2 = 0 → c1.bold = some true ∧ c1.italic = some false ∧
        c2.bold = some true ∧ c2.italic = some false) ∧
      (0 < 2 → is_sub_step (rowLabel ["a)", "Sub one"]) = true →
        c1.italic = some true ∧ c2.italic = some true)) :=
  ⟨c7_header_and_italic c7Rows 0 ["STT", "Content"] rfl,
   c7_header_and_italic c7Rows 2 ["a)", "Sub one"] rfl⟩

/-- C8: the step-count classification returns 21 or 23 exactly when the
stripped model response is "21" or "23"; every other response — the
explicit "UNKNOWN" sentinel included — yields `None`, upon which the
orchestrator aborts before any content file is selected. -/
theorem c8_step_classification (resp : String) :
    (∀ n : Nat, classifyStepCount resp = some n ↔
      (pyStrip resp = "21" ∧ n = 21) ∨ (pyStrip resp = "23" ∧ n = 23)) ∧
    (classifyStepCount resp = none → selectContentFile resp = none) ∧
    classifyStepCount "UNKNOWN" = none := by
  refine ⟨?_, ?_, by decide⟩
  · intro n
    simp only [classifyStepCount]
    by_cases h1 : pyStrip resp = "21"
    · rw [if_pos h1]
      constructor
      · intro hsome
        injection hsome with hn
        exact Or.inl ⟨h1, hn.symm⟩
      · rintro (⟨_, rfl⟩ | ⟨h23, _⟩)
        · rfl
        · rw [h1] at h23
          exact absurd h23 (by decide)
    · rw [if_neg h1]
      by_cases h2 : pyStrip resp = "23"
      · rw [if_pos h2]
        constructor
        · intro hsome
          injection hsome with hn
          exact Or.inr ⟨h2, hn.symm⟩
        · rintro (⟨h21, _⟩ | ⟨_, rfl⟩)
          · rw [h2] at h21
            exact absurd h21 (by decide)
          · rfl
      · rw [if_neg h2]
        simp [h1, h2]
  · intro h
    simp only [selectContentFile, h]

/-- C8 witness: a whitespace-padded "21" classifies as 21, and a junk
response selects no content file. -/
theorem c8_step_classification_witness :
    classifyStepCount " 21\n" = some 21 ∧ selectContentFile "junk" = none :=
  ⟨((c8_step_classification " 21\n").1 21).mpr (Or.inl ⟨by decide, rfl⟩),
   (c8_step_classification "junk").2.1 (by decide)⟩

/-- C9 counterexample: with a template that lacks the placeholder, the run
fails (`False`) and yet a file — the template copy, marker and all — sits
at the canonical output path, because the code copies the template straight
to the output path before splicing and uses no provisional path. -/
theorem c9_provisional_path_cex :
    (replace_placeholder_only "{{cac_buoc_thuc_hien}}"
        "02_MUC_DO_HIEU_BIET_template.docx" "21_BUOC.docx"
        "02_MUC_DO_HIEU_BIET_output.docx" c9Fs).1 = false ∧
    fsGet (replace_placeholder_only "{{cac_buoc_thuc_hien}}"
        "02_MUC_DO_HIEU_BIET_template.docx" "21_BUOC.docx"
        "02_MUC_DO_HIEU_BIET_output.docx" c9Fs).2
      "02_MUC_DO_HIEU_BIET_output.docx" =
      some [Block.para ⟨[], ["no marker here"]⟩] := by
  decide

/-- C9 (amended): `replace_placeholder_only` writes the template copy to
the canonical output path up front; when the placeholder is not found it
returns `False` and that unspliced copy — with the placeholder still
present as literal text, hence detectable — remains at the canonical path,
and on success the same canonical path is overwritten with the spliced
document.  No provisional path is ever used. -/
theorem c9_output_path (ph tp cp op : String) (fs : FS)
    (tmpl content : List Block)
    (ht : fsGet fs tp = some tmpl)
    (hc : fsGet (fsSet fs op tmpl) cp = some content) :
    (spliceBody ph (normalizedElements content) tmpl = none →
      replace_placeholder_only ph tp cp op fs = (false, fsSet fs op tmpl)) ∧
    (∀ out, spliceBody ph (normalizedElements content) tmpl = some out →
      replace_placeholder_only ph tp cp op fs =
        (true, fsSet (fsSet fs op tmpl) op out)) := by
  constructor
  · intro h
    simp [replace_placeholder_only, ht, hc, h]
  · intro out h
    simp [replace_placeholder_only, ht, hc, h]

/-- C9 witness: the not-found branch on the concrete store leaves exactly
the template copy at the output path. -/
theorem c9_output_path_witness :
    replace_placeholder_only "{{cac_buoc_thuc_hien}}"
      "02_MUC_DO_HIEU_BIET_template.docx" "21_BUOC.docx"
      "02_MUC_DO_HIEU_BIET_output.docx" c9Fs =
      (false, fsSet c9Fs "02_MUC_DO_HIEU_BIET_output.docx"
        [Block.para ⟨[], ["no marker here"]⟩]) :=
  (c9_output_path "{{cac_buoc_thuc_hien}}" "02_MUC_DO_HIEU_BIET_template.docx"
    "21_BUOC.docx" "02_MUC_DO_HIEU_BIET_output.docx" c9Fs
    [Block.para ⟨[], ["no marker here"]⟩] [Block.para ⟨[], ["content"]⟩]
    (by decide) (by decide)).1 (by decide)

/-- C10: on a paragraph whose single run holds the whole placeholder, the
cross-run replacement of `processor_can_cu.py` / `processor_muc_dich.py`
clears the matched run and then writes the value to run index `i + 1 = 1`,
past the end of the one-element run list: an uncaught `IndexError`,
modelled as `none`. -/
theorem c10_crossrun_index_error :
    replace_text_variables_preserve_runs [("key", "VALUE")] ["{{key}}"] = none := by
  decide

end PlgHsdt
